import Mathlib

/-!
Verification of the ziggurat wire codec (src/common/message.rs) and the
metrics recorder (src/tools/metrics/recorder.rs).

Byte streams are modelled as `List Nat` with every element < 256.  The async
tokio readers are modelled as pure functions consuming a prefix of the list;
an `io::Result` error (propagated in the source with the question-mark
operator) becomes `DecodeResult.ioError`, and a Rust panic (from `.expect`)
becomes `DecodeResult.panicked` — a panic aborts the task and is distinct
from a recoverable decode error.
-/

namespace Ziggurat

/-- Little-endian byte serialization: `toLE n v` is the `n`-byte
little-endian image of `v` (mod `256 ^ n`), mirroring `uN::to_le_bytes`
and the wrapping `as uN` casts of the source. -/
def toLE : Nat → Nat → List Nat
  | 0, _ => []
  | n + 1, v => v % 256 :: toLE n (v / 256)

/-- Little-endian byte deserialization, mirroring `uN::from_le_bytes` /
`read_uN_le`. -/
def fromLE (bs : List Nat) : Nat :=
  bs.foldr (fun b acc => b + 256 * acc) 0

/-- Reading exactly `n` bytes from the stream; fails (I/O error) when the
stream is shorter, as tokio `read_exact` followed by the question-mark
operator does. -/
def readBytes (n : Nat) (s : List Nat) : Option (List Nat × List Nat) :=
  if n ≤ s.length then some (s.take n, s.drop n) else none

/-- Reading an `n`-byte little-endian unsigned integer
(`read_u16_le` / `read_u32_le` / `read_u64_le`). -/
def readLE (n : Nat) (s : List Nat) : Option (Nat × List Nat) :=
  (readBytes n s).map fun br => (fromLE br.1, br.2)

/-- UTF-8 continuation byte test (`10xxxxxx`). -/
def isCont (b : Nat) : Bool := 0x80 ≤ b && b ≤ 0xbf

/-- Validity of a byte list as UTF-8, exactly the check performed by Rust
`String::from_utf8`: no overlong forms, no surrogate code points, maximum
code point U+10FFFF. -/
def validUtf8 : List Nat → Bool
  | [] => true
  | b :: rest =>
    if b < 0x80 then validUtf8 rest
    else if b < 0xc2 then false
    else if b < 0xe0 then
      match rest with
      | c1 :: r => isCont c1 && validUtf8 r
      | [] => false
    else if b < 0xf0 then
      match rest with
      | c1 :: c2 :: r =>
        (if b = 0xe0 then decide (0xa0 ≤ c1 ∧ c1 ≤ 0xbf)
         else if b = 0xed then decide (0x80 ≤ c1 ∧ c1 ≤ 0x9f)
         else isCont c1) && isCont c2 && validUtf8 r
      | _ => false
    else if b < 0xf5 then
      match rest with
      | c1 :: c2 :: c3 :: r =>
        (if b = 0xf0 then decide (0x90 ≤ c1 ∧ c1 ≤ 0xbf)
         else if b = 0xf4 then decide (0x80 ≤ c1 ∧ c1 ≤ 0x8f)
         else isCont c1) && isCont c2 && isCont c3 && validUtf8 r
      | _ => false
    else false

/-- Result of a decoding function in the model.  `ioError` corresponds to a
recoverable `io::Result::Err` propagated with the question-mark operator;
`panicked` corresponds to a Rust panic (task abort), produced in the source
only by `.expect` on invalid UTF-8. -/
inductive DecodeResult (α : Type) where
  | ok (a : α) (rest : List Nat)
  | ioError
  | panicked
deriving DecidableEq, Repr

/-- The Bitcoin CompactSize prefix written by `write_string` for a payload
of length `l`: the four tiers of the source `match` on `l : usize`. -/
def writeCompactSize (l : Nat) : List Nat :=
  if l ≤ 0xfc then [l]
  else if l ≤ 0xffff then 0xfd :: toLE 2 l
  else if l ≤ 0xffffffff then 0xfe :: toLE 4 l
  else 0xff :: toLE 8 l

/-- Bytes emitted by `write_string`: CompactSize prefix followed by the
string bytes. -/
def write_string (s : List Nat) : List Nat :=
  writeCompactSize s.length ++ s

/-- Value returned by `write_string`: the payload length plus `cs_len`,
where `cs_len` (1, 3, 5 or 9 in the source branches) is the length of the
CompactSize prefix in every branch. -/
def write_string_ret (s : List Nat) : Nat :=
  s.length + (writeCompactSize s.length).length

/-- CompactSize reading: the flag byte selects one of the four shapes.  The
source `match` on a `u8` is exhaustive (`0x00..=0xfc`, `0xfd`, `0xfe`,
`0xff`), so no marker is ever rejected. -/
def decodeCompactSize (s : List Nat) : Option (Nat × List Nat) :=
  match s with
  | [] => none
  | flag :: s1 =>
    if flag ≤ 0xfc then some (flag, s1)
    else if flag = 0xfd then readLE 2 s1
    else if flag = 0xfe then readLE 4 s1
    else readLE 8 s1

/-- Model of `decode_string`.  The length-prefix reads propagate I/O errors,
but the `read_exact` that fills the payload buffer has its `Result`
DISCARDED in the source (`stream.read_exact(&mut buf).await;` with no
question mark), so on a short stream the zero-initialized buffer keeps its
padding zeroes and decoding proceeds.  `String::from_utf8(..).expect(..)`
panics on invalid UTF-8. -/
def decode_string (s : List Nat) : DecodeResult (List Nat) :=
  match decodeCompactSize s with
  | none => .ioError
  | some (len, s2) =>
    let buf := s2.take len ++ List.replicate (len - s2.length) 0
    let rest := s2.drop len
    if validUtf8 buf then .ok buf rest else .panicked

/-- An IP address: a V4 address stores its 4 octets, a V6 address its 16
octets (mirroring `std::net::IpAddr`). -/
inductive IpAddrM where
  | v4 (octets : List Nat)
  | v6 (octets : List Nat)
deriving DecidableEq, Repr

/-- A socket address: IP plus port (mirroring `std::net::SocketAddr`). -/
structure SockAddr where
  ip : IpAddrM
  port : Nat
deriving DecidableEq, Repr

/-- Rust `Ipv4Addr::to_ipv6_mapped`: `a.b.c.d` becomes the 16-byte form
with prefix `00 .. 00 ff ff`. -/
def to_ipv6_mapped (o4 : List Nat) : List Nat :=
  [0, 0, 0, 0, 0, 0, 0, 0, 0, 0, 0xff, 0xff] ++ o4

/-- Rust `Ipv6Addr::to_ipv4` on the 16 octets: succeeds on IPv4-mapped
addresses (`::ffff:a.b.c.d`) AND on IPv4-compatible addresses
(`::a.b.c.d`, which includes `::` and `::1`), returning the last 4 octets;
fails otherwise. -/
def to_ipv4 (o : List Nat) : Option (List Nat) :=
  if o.take 10 = List.replicate 10 0 ∧
      (o.drop 10 |>.take 2) ∈ [[0xff, 0xff], [0, 0]] then
    some (o.drop 12)
  else none

/-- Rust `u16::to_be` on a little-endian target: a byte swap of a value
below `2 ^ 16`. -/
def u16_to_be (v : Nat) : Nat := v % 256 * 256 + v / 256

/-- The 16 octets put on the wire for an IP: the source `match` in
`write_addr` maps a V4 address through `to_ipv6_mapped` and passes V6
octets through. -/
def wireOctets : IpAddrM → List Nat
  | .v4 o => to_ipv6_mapped o
  | .v6 o => o

/-- The IP value reconstructed by `decode_addr` from 16 wire octets: the
source `match` on `v6_addr.to_ipv4()`. -/
def unwrapIp (o : List Nat) : IpAddrM :=
  match to_ipv4 o with
  | some o4 => .v4 o4
  | none => .v6 o

/-- Model of `write_addr`: 8-byte little-endian services, 16 IP octets
(IPv4 written in its IPv4-mapped IPv6 form), then the port as 2 bytes
BIG-endian (`u16::to_be_bytes`). -/
def write_addr (sa : Nat × SockAddr) : List Nat :=
  toLE 8 sa.1 ++ wireOctets sa.2.ip ++
  [sa.2.port / 256 % 256, sa.2.port % 256]

/-- Model of `decode_addr`: read services (8 LE), 16 IP octets (unwrapped
to IPv4 whenever `to_ipv4` succeeds), then the port via `read_u16_le`
followed by `u16::to_be` (a byte swap). -/
def decode_addr (s : List Nat) : Option ((Nat × SockAddr) × List Nat) :=
  match readLE 8 s with
  | none => none
  | some (services, s1) =>
    match readBytes 16 s1 with
    | none => none
    | some (octets, s2) =>
      match readLE 2 s2 with
      | none => none
      | some (portLe, s3) =>
        some ((services, ⟨unwrapIp octets, u16_to_be portLe⟩), s3)

/-- The `Version` message payload.  The `DateTime` timestamp field is
modelled at the granularity the wire carries: `encode` transmits
`timestamp.timestamp()` (whole unix seconds as an i64) and `decode`
reconstructs the date via `from_timestamp(ts, 0)`, so the model stores the
seconds as an `Int`. -/
structure Version where
  version : Nat
  services : Nat
  timestamp : Int
  addr_recv : Nat × SockAddr
  addr_from : Nat × SockAddr
  nonce : Nat
  user_agent : List Nat
  start_height : Nat
  relay : Bool
deriving DecidableEq, Repr

/-- Two's-complement little-endian image of an i64
(`i64::to_le_bytes`). -/
def i64ToLE (x : Int) : List Nat := toLE 8 (x % (2 ^ 64 : Int)).toNat

/-- Interpretation of an unsigned 8-byte value as an i64
(`read_i64_le`). -/
def asI64 (n : Nat) : Int :=
  if n < 2 ^ 63 then (n : Int) else (n : Int) - 2 ^ 64

/-- The body bytes written by `Version::encode` into `body_buf`, in source
order: version (4 LE), services (8 LE), timestamp (8 LE, i64 seconds),
addr_recv, addr_from, nonce (8 LE), user_agent (CompactSize + bytes),
start_height (4 LE), relay (1 byte). -/
def encodeBody (v : Version) : List Nat :=
  toLE 4 v.version ++ toLE 8 v.services ++ i64ToLE v.timestamp ++
  write_addr v.addr_recv ++ write_addr v.addr_from ++
  toLE 8 v.nonce ++ write_string v.user_agent ++
  toLE 4 v.start_height ++ [if v.relay then 1 else 0]

/-- Model of `Version::decode`: the mirror reads of the body fields.  No
header is read and no checksum is recomputed or compared anywhere in the
function. -/
def Version.decode (s : List Nat) : DecodeResult Version :=
  match readLE 4 s with
  | none => .ioError
  | some (version, s1) =>
    match readLE 8 s1 with
    | none => .ioError
    | some (services, s2) =>
      match readLE 8 s2 with
      | none => .ioError
      | some (tsRaw, s3) =>
        match decode_addr s3 with
        | none => .ioError
        | some (addrRecv, s4) =>
          match decode_addr s4 with
          | none => .ioError
          | some (addrFrom, s5) =>
            match readLE 8 s5 with
            | none => .ioError
            | some (nonce, s6) =>
              match decode_string s6 with
              | .ioError => .ioError
              | .panicked => .panicked
              | .ok ua s7 =>
                match readLE 4 s7 with
                | none => .ioError
                | some (startHeight, s8) =>
                  match s8 with
                  | [] => .ioError
                  | relayByte :: s9 =>
                    .ok
                      { version := version
                        services := services
                        timestamp := asI64 tsRaw
                        addr_recv := addrRecv
                        addr_from := addrFrom
                        nonce := nonce
                        user_agent := ua
                        start_height := startHeight
                        relay := relayByte != 0 } s9

/-- Truncation to a 32-bit word. -/
def w32 (x : Nat) : Nat := x % 4294967296

/-- Right rotation of a 32-bit word by `n` places. -/
def rotr (n x : Nat) : Nat := x / 2 ^ n + x % 2 ^ n * 2 ^ (32 - n)

/-- SHA-256 small sigma 0. -/
def ssig0 (x : Nat) : Nat := rotr 7 x ^^^ rotr 18 x ^^^ x / 2 ^ 3

/-- SHA-256 small sigma 1. -/
def ssig1 (x : Nat) : Nat := rotr 17 x ^^^ rotr 19 x ^^^ x / 2 ^ 10

/-- SHA-256 big sigma 0. -/
def bsig0 (x : Nat) : Nat := rotr 2 x ^^^ rotr 13 x ^^^ rotr 22 x

/-- SHA-256 big sigma 1. -/
def bsig1 (x : Nat) : Nat := rotr 6 x ^^^ rotr 11 x ^^^ rotr 25 x

/-- SHA-256 choice function. -/
def ch (x y z : Nat) : Nat := x &&& y ^^^ (x ^^^ 0xffffffff) &&& z

/-- SHA-256 majority function. -/
def maj (x y z : Nat) : Nat := x &&& y ^^^ x &&& z ^^^ y &&& z

/-- SHA-256 round constants (FIPS 180-4, written in decimal). -/
def sha256K : List Nat :=
  [1116352408, 1899447441, 3049323471, 3921009573, 961987163,
   1508970993, 2453635748, 2870763221, 3624381080, 310598401,
   607225278, 1426881987, 1925078388, 2162078206, 2614888103,
   3248222580, 3835390401, 4022224774, 264347078, 604807628,
   770255983, 1249150122, 1555081692, 1996064986, 2554220882,
   2821834349, 2952996808, 3210313671, 3336571891, 3584528711,
   113926993, 338241895, 666307205, 773529912, 1294757372,
   1396182291, 1695183700, 1986661051, 2177026350, 2456956037,
   2730485921, 2820302411, 3259730800, 3345764771, 3516065817,
   3600352804, 4094571909, 275423344, 430227734, 506948616,
   659060556, 883997877, 958139571, 1322822218, 1537002063,
   1747873779, 1955562222, 2024104815, 2227730452, 2361852424,
   2428436474, 2756734187, 3204031479, 3329325298]

/-- SHA-256 initial hash state (FIPS 180-4, written in decimal). -/
def sha256H0 : List Nat :=
  [1779033703, 3144134277, 1013904242, 2773480762,
   1359893119, 2600822924, 528734635, 1541459225]

set_option linter.unusedVariables false in
/-- Message-schedule extension: grow the 16 block words to 64. -/
def sha256Schedule (ws : List Nat) : List Nat :=
  if h : 64 ≤ ws.length then ws
  else
    sha256Schedule (ws ++
      [w32 (ssig1 (ws.getD (ws.length - 2) 0) + ws.getD (ws.length - 7) 0 +
            ssig0 (ws.getD (ws.length - 15) 0) + ws.getD (ws.length - 16) 0)])
termination_by 64 - ws.length
decreasing_by simp at h ⊢; omega

/-- One round of the SHA-256 compression function on the 8-word working
state. -/
def sha256Round (st : List Nat) (kw : Nat × Nat) : List Nat :=
  match st with
  | [a, b, c, d, e, f, g, h] =>
    let t1 := w32 (h + bsig1 e + ch e f g + kw.1 + kw.2)
    let t2 := w32 (bsig0 a + maj a b c)
    [w32 (t1 + t2), a, b, c, w32 (d + t1), e, f, g]
  | other => other

/-- SHA-256 compression of one 16-word block into the running hash
state. -/
def sha256Compress (st : List Nat) (block : List Nat) : List Nat :=
  let ws := sha256Schedule block
  let fin := (sha256K.zip ws).foldl sha256Round st
  (st.zip fin).map fun p => w32 (p.1 + p.2)

/-- Big-endian byte serialization of a value into `n` bytes. -/
def toBE (n v : Nat) : List Nat := (toLE n v).reverse

/-- SHA-256 padding: append `0x80`, zero bytes up to 56 mod 64, then the
bit length as 8 bytes big-endian. -/
def sha256Pad (msg : List Nat) : List Nat :=
  msg ++ [0x80] ++ List.replicate ((119 - msg.length % 64) % 64) 0 ++
    toBE 8 (8 * msg.length)

/-- Grouping of a padded byte list into big-endian 32-bit words. -/
def bytesToWords : List Nat → List Nat
  | b0 :: b1 :: b2 :: b3 :: rest =>
    (((b0 * 256 + b1) * 256 + b2) * 256 + b3) :: bytesToWords rest
  | _ => []

/-- Splitting a word list into 16-word blocks. -/
def chunk16 : List Nat → List (List Nat)
  | [] => []
  | w :: rest => ((w :: rest).take 16) :: chunk16 ((w :: rest).drop 16)
termination_by ws => ws.length
decreasing_by simp; omega

/-- SHA-256 of a byte list, as computed by the `sha2` crate: padding,
block-wise compression, big-endian serialization of the final state. -/
def sha256 (msg : List Nat) : List Nat :=
  let blocks := chunk16 (bytesToWords (sha256Pad msg))
  ((blocks.foldl sha256Compress sha256H0).map (toBE 4)).flatten

/-- Model of the source `checksum` function: the first 4 bytes of the
double SHA-256 of the body. -/
def checksum (bytes : List Nat) : List Nat :=
  (sha256 (sha256 bytes)).take 4

/-- The 12 command bytes written by `Version::encode`
(`b"version\0\0\0\0\0"`). -/
def versionCommand : List Nat :=
  [0x76, 0x65, 0x72, 0x73, 0x69, 0x6f, 0x6e, 0, 0, 0, 0, 0]

/-- The header bytes written by `Version::encode` into `header_buf`:
magic, command, then the body length written as `(85 + len) as u32`
little-endian (where `len` is the value returned by `write_string`), then
the 4 checksum bytes of the body. -/
def encodeHeader (v : Version) : List Nat :=
  [0xfa, 0x1a, 0xf9, 0xbf] ++ versionCommand ++
  toLE 4 (85 + write_string_ret v.user_agent) ++
  checksum (encodeBody v)

/-- The full byte stream written to the TCP socket by `Version::encode`:
header then body. -/
def Version.encode (v : Version) : List Nat :=
  encodeHeader v ++ encodeBody v

/-!
Model of the process-wide metrics machinery used by
`src/tools/metrics/recorder.rs`.  The `metrics` crate keeps one global
recorder handle; `DebuggingRecorder` owns a registry of series that its
`Snapshotter` reads through a shared reference.  `metrics::clear_recorder()`
only unsets the global recorder handle — it does not touch the registry the
snapshotter holds.  The model tracks the one recorder of the scenario.
-/

/-- Process-wide metrics state: whether the global recorder handle is set,
and the debugging registry of counter series shared with the
snapshotter. -/
structure MetricsWorld where
  recorderInstalled : Bool
  registry : List (String × Nat)
deriving DecidableEq, Repr

/-- Update of one counter series in the registry (registering it on first
write). -/
def updateCounter : List (String × Nat) → String → Nat → List (String × Nat)
  | [], k, n => [(k, n)]
  | (k0, v) :: rest, k, n =>
    if k0 = k then (k0, v + n) :: rest else (k0, v) :: updateCounter rest k n

/-- Model of `SimpleRecorder::default`: build a recorder and snapshotter
and install the recorder globally (errors from an already-installed
recorder are let through). -/
def SimpleRecorder.install (w : MetricsWorld) : MetricsWorld :=
  if w.recorderInstalled then w else { w with recorderInstalled := true }

/-- Model of a `metrics::counter` increment: routed to the installed
recorder's registry, dropped when no recorder is installed. -/
def recordCounter (w : MetricsWorld) (key : String) (amount : Nat) :
    MetricsWorld :=
  if w.recorderInstalled then
    { w with registry := updateCounter w.registry key amount }
  else w

/-- Model of `SimpleRecorder::clear`, which calls
`metrics::clear_recorder()`: the global recorder handle is unset, and
nothing else changes — in particular the registry behind the snapshotter
keeps every recorded sample. -/
def SimpleRecorder.clear (w : MetricsWorld) : MetricsWorld :=
  { w with recorderInstalled := false }

/-- Model of `SimpleRecorder::counters`: the snapshotter reads the counter
series out of the registry it shares with the recorder. -/
def SimpleRecorder.counters (w : MetricsWorld) : List (String × Nat) :=
  w.registry

/-- Discriminant of the IP variant. -/
def IpAddrM.isV4 : IpAddrM → Bool
  | .v4 _ => true
  | .v6 _ => false

/-- The stored octet list of an IP value. -/
def IpAddrM.octets : IpAddrM → List Nat
  | .v4 o => o
  | .v6 o => o

/-- Well-formedness of an IP value of the model: the octet list has the
length of the Rust representation (4 for V4, 16 for V6) and holds bytes. -/
abbrev IpAddrM.wf (ip : IpAddrM) : Prop :=
  ip.octets.length = (if ip.isV4 then 4 else 16) ∧ ∀ b ∈ ip.octets, b < 256

/-- Well-formedness of a socket address: well-formed IP and a u16 port. -/
abbrev SockAddr.wf (sa : SockAddr) : Prop :=
  sa.ip.wf ∧ sa.port < 65536

/-- Well-formedness of a services/socket-address pair (u64 services). -/
abbrev addrWF (a : Nat × SockAddr) : Prop :=
  a.1 < 2 ^ 64 ∧ a.2.wf

/-- An IP survives the wire round trip untouched by the IPv4 unwrapping:
either it is a V4 address, or a V6 address on which `to_ipv4` fails (it is
neither IPv4-mapped nor IPv4-compatible). -/
abbrev roundTripIp (ip : IpAddrM) : Prop :=
  ip.isV4 = true ∨ to_ipv4 ip.octets = none

/-- Well-formedness of a `Version` value: every field is within the range
of its Rust machine type, and the user agent is a valid UTF-8 `String`. -/
abbrev Version.wf (v : Version) : Prop :=
  v.version < 2 ^ 32 ∧ v.services < 2 ^ 64 ∧
  -2 ^ 63 ≤ v.timestamp ∧ v.timestamp < 2 ^ 63 ∧
  addrWF v.addr_recv ∧ addrWF v.addr_from ∧
  v.nonce < 2 ^ 64 ∧
  validUtf8 v.user_agent = true ∧ v.user_agent.length < 2 ^ 64 ∧
  v.start_height < 2 ^ 32

/-- Octets of the IPv6 loopback address `::1`, a native (non-mapped) IPv6
address. -/
def loopback6 : List Nat := [0, 0, 0, 0, 0, 0, 0, 0, 0, 0, 0, 0, 0, 0, 0, 1]

/-- A concrete well-formed `Version` message whose receiving address is
the native IPv6 address `[::1]:8233` (the field values of `Version::new`
with deterministic timestamp and nonce). -/
def mLoop : Version :=
  { version := 170013
    services := 1
    timestamp := 0
    addr_recv := (1, ⟨.v6 loopback6, 8233⟩)
    addr_from := (1, ⟨.v4 [127, 0, 0, 1], 8233⟩)
    nonce := 0
    user_agent := []
    start_height := 0
    relay := false }

/-- The message actually produced by decoding the encoded body of
`mLoop`: the `::1` receiving address comes back as the IPv4 address
`0.0.0.1`. -/
def mLoopDecoded : Version :=
  { mLoop with addr_recv := (1, ⟨.v4 [0, 0, 0, 1], 8233⟩) }

/-- A concrete well-formed `Version` message with IPv4 addresses only. -/
def mBase : Version :=
  { version := 170013
    services := 1
    timestamp := 0
    addr_recv := (1, ⟨.v4 [127, 0, 0, 1], 8233⟩)
    addr_from := (1, ⟨.v4 [127, 0, 0, 1], 8233⟩)
    nonce := 0
    user_agent := []
    start_height := 0
    relay := false }

/-- The encoded body of `mBase` with a single byte flipped: byte 72 (the
first byte of the nonce field) changed from 0 to 1. -/
def flippedBody : List Nat :=
  (encodeBody mBase).take 72 ++ [1] ++ (encodeBody mBase).drop 73

/-- A body byte stream as a peer could send it: the first 80 bytes of the
body of `mBase` (everything up to and including the nonce), then a
user-agent declared 1 byte long whose byte `0xff` is not valid UTF-8, then
start height and relay flag. -/
def badUtf8Body : List Nat :=
  (encodeBody mBase).take 80 ++ [1, 0xff] ++ [0, 0, 0, 0] ++ [0]

/-!
Helper lemmas about the byte-level readers and writers.
-/

theorem toLE_length (n : Nat) : ∀ v, (toLE n v).length = n := by
  induction n with
  | zero => intro v; rfl
  | succ n ih => intro v; simp [toLE, ih]

theorem fromLE_cons (b : Nat) (bs : List Nat) :
    fromLE (b :: bs) = b + 256 * fromLE bs := rfl

theorem fromLE_toLE (n : Nat) : ∀ v, v < 256 ^ n → fromLE (toLE n v) = v := by
  induction n with
  | zero =>
    intro v hv
    simp [pow_zero] at hv
    simp [toLE, fromLE, hv]
  | succ n ih =>
    intro v hv
    have hdiv : v / 256 < 256 ^ n := by
      rw [Nat.div_lt_iff_lt_mul (by norm_num)]
      calc v < 256 ^ (n + 1) := hv
        _ = 256 ^ n * 256 := by ring
    rw [toLE, fromLE_cons, ih (v / 256) hdiv]
    omega

theorem readBytes_exact (n : Nat) (bs : List Nat) (h : bs.length = n)
    (rest : List Nat) : readBytes n (bs ++ rest) = some (bs, rest) := by
  subst h
  unfold readBytes
  rw [if_pos (by simp)]
  rw [List.take_left, List.drop_left]

theorem readLE_append (n v : Nat) (h : v < 256 ^ n) (rest : List Nat) :
    readLE n (toLE n v ++ rest) = some (v, rest) := by
  unfold readLE
  rw [readBytes_exact n (toLE n v) (toLE_length n v) rest]
  simp [fromLE_toLE n v h]

theorem decodeCompactSize_fd (w : Nat) (hw : w < 2 ^ 16) (r : List Nat) :
    decodeCompactSize (0xfd :: toLE 2 w ++ r) = some (w, r) := by
  show decodeCompactSize (0xfd :: (toLE 2 w ++ r)) = some (w, r)
  unfold decodeCompactSize
  norm_num
  exact readLE_append 2 w (by norm_num at hw ⊢; omega) r

theorem decodeCompactSize_fe (w : Nat) (hw : w < 2 ^ 32) (r : List Nat) :
    decodeCompactSize (0xfe :: toLE 4 w ++ r) = some (w, r) := by
  show decodeCompactSize (0xfe :: (toLE 4 w ++ r)) = some (w, r)
  unfold decodeCompactSize
  norm_num
  exact readLE_append 4 w (by norm_num at hw ⊢; omega) r

theorem decodeCompactSize_ff (w : Nat) (hw : w < 2 ^ 64) (r : List Nat) :
    decodeCompactSize (0xff :: toLE 8 w ++ r) = some (w, r) := by
  show decodeCompactSize (0xff :: (toLE 8 w ++ r)) = some (w, r)
  unfold decodeCompactSize
  norm_num
  exact readLE_append 8 w (by norm_num at hw ⊢; omega) r

theorem decodeCompactSize_small (w : Nat) (hw : w ≤ 0xfc) (r : List Nat) :
    decodeCompactSize (w :: r) = some (w, r) := by
  simp only [decodeCompactSize]
  rw [if_pos hw]

theorem decodeCompactSize_write (l : Nat) (h : l < 2 ^ 64) (rest : List Nat) :
    decodeCompactSize (writeCompactSize l ++ rest) = some (l, rest) := by
  unfold writeCompactSize
  by_cases h1 : l ≤ 0xfc
  · rw [if_pos h1]
    exact decodeCompactSize_small l h1 rest
  · rw [if_neg h1]
    by_cases h2 : l ≤ 0xffff
    · rw [if_pos h2]
      exact decodeCompactSize_fd l (by norm_num at h2 ⊢; omega) rest
    · rw [if_neg h2]
      by_cases h3 : l ≤ 0xffffffff
      · rw [if_pos h3]
        exact decodeCompactSize_fe l (by norm_num at h3 ⊢; omega) rest
      · rw [if_neg h3]
        exact decodeCompactSize_ff l h rest

theorem decode_string_of_cs (t s rest : List Nat)
    (h : decodeCompactSize t = some (s.length, s ++ rest))
    (hu : validUtf8 s = true) :
    decode_string t = .ok s rest := by
  unfold decode_string
  rw [h]
  simp only [List.take_left, List.drop_left]
  have hz : s.length - (s ++ rest).length = 0 := by simp
  rw [hz]
  simp [hu]

theorem decode_string_write (s : List Nat) (hu : validUtf8 s = true)
    (hl : s.length < 2 ^ 64) (rest : List Nat) :
    decode_string (write_string s ++ rest) = .ok s rest := by
  apply decode_string_of_cs _ s rest _ hu
  unfold write_string
  rw [List.append_assoc]
  exact decodeCompactSize_write s.length hl (s ++ rest)

theorem readLE_two (a b : Nat) (r : List Nat) :
    readLE 2 (a :: b :: r) = some (a + 256 * b, r) := by
  show readLE 2 ([a, b] ++ r) = some (a + 256 * b, r)
  unfold readLE
  rw [readBytes_exact 2 [a, b] rfl r]
  simp [fromLE]

theorem u16_to_be_wire (p : Nat) (hp : p < 65536) :
    u16_to_be (p / 256 % 256 + 256 * (p % 256)) = p := by
  have h2 : (p / 256 % 256 + 256 * (p % 256)) % 256 = p / 256 := by omega
  have h3 : (p / 256 % 256 + 256 * (p % 256)) / 256 = p % 256 := by omega
  unfold u16_to_be
  rw [h2, h3]
  omega

theorem to_ipv4_mapped (o : List Nat) : to_ipv4 (to_ipv6_mapped o) = some o := by
  simp [to_ipv4, to_ipv6_mapped, List.take_append_eq_append_take,
    List.drop_append_eq_append_drop]

theorem wireOctets_length (ip : IpAddrM) (h : ip.wf) :
    (wireOctets ip).length = 16 := by
  obtain ⟨h1, _⟩ := h
  cases ip with
  | v4 o =>
    simp [IpAddrM.octets, IpAddrM.isV4] at h1
    simp [wireOctets, to_ipv6_mapped, h1]
  | v6 o =>
    simp [IpAddrM.octets, IpAddrM.isV4] at h1
    simp [wireOctets, h1]

theorem unwrapIp_wireOctets (ip : IpAddrM) (hr : roundTripIp ip) :
    unwrapIp (wireOctets ip) = ip := by
  cases ip with
  | v4 o =>
    unfold unwrapIp wireOctets
    rw [to_ipv4_mapped]
  | v6 o =>
    have hn : to_ipv4 o = none := by
      rcases hr with hr | hr
      · simp [IpAddrM.isV4] at hr
      · simpa [IpAddrM.octets] using hr
    unfold unwrapIp wireOctets
    rw [hn]

theorem decode_addr_general (sa : Nat × SockAddr) (h : addrWF sa)
    (rest : List Nat) :
    decode_addr (write_addr sa ++ rest) =
      some ((sa.1, ⟨unwrapIp (wireOctets sa.2.ip), sa.2.port⟩), rest) := by
  obtain ⟨hs, hip, hport⟩ := h
  have h8 : sa.1 < 256 ^ 8 := by norm_num at hs ⊢; omega
  unfold write_addr
  simp only [List.append_assoc, List.cons_append, List.nil_append]
  simp only [decode_addr, readLE_append 8 sa.1 h8,
    readBytes_exact 16 (wireOctets sa.2.ip) (wireOctets_length sa.2.ip hip),
    readLE_two, u16_to_be_wire sa.2.port hport]

theorem decode_addr_write (sa : Nat × SockAddr) (h : addrWF sa)
    (hr : roundTripIp sa.2.ip) (rest : List Nat) :
    decode_addr (write_addr sa ++ rest) = some (sa, rest) := by
  rw [decode_addr_general sa h rest, unwrapIp_wireOctets sa.2.ip hr]

theorem asI64_emod (x : Int) (h1 : -2 ^ 63 ≤ x) (h2 : x < 2 ^ 63) :
    asI64 ((x % (2 ^ 64 : Int)).toNat) = x ∧
      (x % (2 ^ 64 : Int)).toNat < 2 ^ 64 := by
  simp only [asI64]
  constructor
  · split <;> omega
  · omega

theorem readLE_i64 (x : Int) (h1 : -2 ^ 63 ≤ x) (h2 : x < 2 ^ 63)
    (rest : List Nat) :
    readLE 8 (i64ToLE x ++ rest) = some ((x % (2 ^ 64 : Int)).toNat, rest) := by
  unfold i64ToLE
  refine readLE_append 8 _ ?_ rest
  have := (asI64_emod x h1 h2).2
  norm_num at this ⊢
  omega

theorem relay_byte (b : Bool) : (((if b then 1 else 0) : Nat) != 0) = b := by
  cases b <;> rfl

theorem version_decode_encodeBody (v : Version) (h : v.wf)
    (hr : roundTripIp v.addr_recv.2.ip) (hf : roundTripIp v.addr_from.2.ip)
    (rest : List Nat) :
    Version.decode (encodeBody v ++ rest) = .ok v rest := by
  obtain ⟨h1, h2, h3, h4, h5, h6, h7, h8, h9, h10⟩ := h
  have hv4 : v.version < 256 ^ 4 := by norm_num at h1 ⊢; omega
  have hs8 : v.services < 256 ^ 8 := by norm_num at h2 ⊢; omega
  have hn8 : v.nonce < 256 ^ 8 := by norm_num at h7 ⊢; omega
  have hh4 : v.start_height < 256 ^ 4 := by norm_num at h10 ⊢; omega
  unfold encodeBody
  simp only [List.append_assoc, List.cons_append, List.nil_append]
  simp only [Version.decode,
    readLE_append 4 v.version hv4,
    readLE_append 8 v.services hs8,
    readLE_i64 v.timestamp h3 h4,
    decode_addr_write v.addr_recv h5 hr,
    decode_addr_write v.addr_from h6 hf,
    readLE_append 8 v.nonce hn8,
    decode_string_write v.user_agent h8 h9,
    readLE_append 4 v.start_height hh4,
    (asI64_emod v.timestamp h3 h4).1,
    relay_byte]

theorem i64ToLE_length (x : Int) : (i64ToLE x).length = 8 := by
  unfold i64ToLE
  exact toLE_length 8 _

theorem write_addr_length (sa : Nat × SockAddr) (h : sa.2.ip.wf) :
    (write_addr sa).length = 26 := by
  unfold write_addr
  simp [toLE_length, wireOctets_length sa.2.ip h]

theorem encodeBody_length (v : Version) (h : v.wf) :
    (encodeBody v).length = 85 + write_string_ret v.user_agent := by
  obtain ⟨h1, h2, h3, h4, h5, h6, h7, h8, h9, h10⟩ := h
  simp only [encodeBody, write_string, write_string_ret, List.length_append,
    List.length_cons, List.length_nil, toLE_length, i64ToLE_length,
    write_addr_length v.addr_recv h5.2.1, write_addr_length v.addr_from h6.2.1]
  omega

/-!
The claim theorems.
-/

/-- Claim C1, counterexample.  The claim states that decoding the byte
stream produced by encoding any well-formed Version message yields a
message equal in every field.  It fails: `mLoop` is a well-formed message
whose receiving address is the native IPv6 address `[::1]:8233`, yet
decoding its encoded body returns `mLoopDecoded`, whose receiving address
is the IPv4 address `0.0.0.1:8233`, because `decode_addr` unwraps any
IPv4-compatible IPv6 address via `to_ipv4`. -/
theorem version_roundtrip_counterexample :
    Version.wf mLoop ∧
    Version.decode (encodeBody mLoop) = .ok mLoopDecoded [] ∧
    mLoopDecoded ≠ mLoop ∧
    Version.decode (encodeBody mLoop) ≠ .ok mLoop [] := by decide

/-- Claim C1, amended.  For every well-formed Version message both of
whose socket addresses survive the IPv4 unwrapping (the IP is IPv4, or is
an IPv6 address that is neither IPv4-mapped nor IPv4-compatible, so that
`to_ipv4` fails on its octets), decoding the encoded body recovers the
message in every field: version, services, timestamp, addr_recv,
addr_from, nonce, user_agent, start_height and relay.  `Version::encode`
emits header followed by body, and `Version::decode` consumes the body
stream (the 24-byte header is consumed by the caller). -/
theorem version_decode_inverts_encode (v : Version) (h : v.wf)
    (hr : roundTripIp v.addr_recv.2.ip) (hf : roundTripIp v.addr_from.2.ip)
    (rest : List Nat) :
    Version.encode v = encodeHeader v ++ encodeBody v ∧
    Version.decode (encodeBody v ++ rest) = .ok v rest :=
  ⟨rfl, version_decode_encodeBody v h hr hf rest⟩

/-- Claim C1, witness: the amended round trip evaluated on the concrete
well-formed message `mBase`. -/
theorem version_decode_inverts_encode_witness :
    Version.decode (encodeBody mBase ++ []) = .ok mBase [] :=
  (version_decode_inverts_encode mBase (by decide) (by decide) (by decide)
    []).2

/-- Claim C2: `write_string` always chooses the minimal CompactSize tier
(1 byte for values up to 0xfc, marker 0xfd plus 2-byte little-endian up to
0xffff, marker 0xfe plus 4-byte little-endian up to 0xffff_ffff, marker
0xff plus 8-byte little-endian beyond), the boundary values 0, 0xfc, 0xfd,
0xffff, 0x10000 get prefix widths 1, 1, 3, 3, 5, and decoding any of these
encodings reproduces the original value. -/
theorem compactSize_minimal_tiers (l : Nat) (h : l < 2 ^ 64)
    (rest : List Nat) :
    ((writeCompactSize l).length =
      if l ≤ 0xfc then 1 else if l ≤ 0xffff then 3
      else if l ≤ 0xffffffff then 5 else 9) ∧
    (l ≤ 0xfc → writeCompactSize l = [l]) ∧
    (0xfd ≤ l ∧ l ≤ 0xffff → writeCompactSize l = 0xfd :: toLE 2 l) ∧
    (0x10000 ≤ l ∧ l ≤ 0xffffffff → writeCompactSize l = 0xfe :: toLE 4 l) ∧
    (0x100000000 ≤ l → writeCompactSize l = 0xff :: toLE 8 l) ∧
    (∀ s : List Nat, s.length = l → write_string s = writeCompactSize l ++ s) ∧
    decodeCompactSize (writeCompactSize l ++ rest) = some (l, rest) ∧
    ((writeCompactSize 0).length = 1 ∧ (writeCompactSize 0xfc).length = 1 ∧
      (writeCompactSize 0xfd).length = 3 ∧
      (writeCompactSize 0xffff).length = 3 ∧
      (writeCompactSize 0x10000).length = 5) ∧
    (decodeCompactSize (writeCompactSize 0) = some (0, []) ∧
      decodeCompactSize (writeCompactSize 0xfc) = some (0xfc, []) ∧
      decodeCompactSize (writeCompactSize 0xfd) = some (0xfd, []) ∧
      decodeCompactSize (writeCompactSize 0xffff) = some (0xffff, []) ∧
      decodeCompactSize (writeCompactSize 0x10000) = some (0x10000, [])) := by
  refine ⟨?_, ?_, ?_, ?_, ?_, ?_, ?_, by decide, by decide⟩
  · unfold writeCompactSize
    split_ifs <;> simp [toLE_length]
  · intro hl
    unfold writeCompactSize
    rw [if_pos hl]
  · intro hl
    unfold writeCompactSize
    rw [if_neg (by omega), if_pos hl.2]
  · intro hl
    unfold writeCompactSize
    rw [if_neg (by omega), if_neg (by omega), if_pos hl.2]
  · intro hl
    unfold writeCompactSize
    rw [if_neg (by omega), if_neg (by omega), if_neg (by omega)]
  · intro s hs
    unfold write_string
    rw [hs]
  · exact decodeCompactSize_write l h rest

/-- Claim C2, witness: the tier characterization evaluated at the boundary
value 0xfd. -/
theorem compactSize_minimal_tiers_witness :
    decodeCompactSize (writeCompactSize 0xfd ++ [0x99]) = some (0xfd, [0x99]) :=
  (compactSize_minimal_tiers 0xfd (by decide) [0x99]).2.2.2.2.2.2.1

/-- Claim C3, code-bug evidence.  The claim (and the specification)
require a recoverable decode error on invalid UTF-8, but `decode_string`
calls `String::from_utf8(buf).expect("invalid utf-8")`, which panics and
aborts the task: on the stream `[0x01, 0xff]` (declared length 1, byte
0xff, not valid UTF-8) the decoder panics instead of returning an error,
and so does `Version::decode` on a full body carrying that user agent. -/
theorem decode_string_panics_on_invalid_utf8 :
    validUtf8 [0xff] = false ∧
    decode_string [0x01, 0xff] = .panicked ∧
    Version.decode badUtf8Body = .panicked := by decide

/-- Claim C4, code-bug evidence.  The claim requires decode to recompute
the body checksum and fail on a mismatch, but `Version::decode` never
reads a header and never computes or compares any checksum: flipping one
byte of the encoded body of `mBase` (byte 72, the first nonce byte,
changed from 0 to 1) yields a stream that decodes successfully to a
message with nonce 1 instead of producing a checksum-mismatch error. -/
theorem decode_ignores_checksum :
    flippedBody.length = (encodeBody mBase).length ∧
    flippedBody ≠ encodeBody mBase ∧
    Version.decode (encodeBody mBase) = .ok mBase [] ∧
    Version.decode flippedBody = .ok { mBase with nonce := 1 } [] := by decide

/-- Claim C5, code-bug evidence.  The claim requires a decode error when
the stream ends before the declared length has been read, but the source
discards the `io::Result` of `read_exact`, so on the stream `[0x02, 0x61]`
(declared length 2, one byte available) `decode_string` returns the
2-byte string built from the single available byte plus a padding zero
instead of failing. -/
theorem decode_string_zero_pads_truncated :
    writeCompactSize 2 ++ [0x61] = [0x02, 0x61] ∧
    decode_string [0x02, 0x61] = .ok [0x61, 0] [] ∧
    decode_string [0x02, 0x61] ≠ .ioError := by decide

/-- Claim C6, counterexample.  The claim states that a native (non-mapped)
IPv6 socket address round-trips unchanged, but the IPv6 loopback `::1`
(native and not IPv4-mapped) is IPv4-compatible, so `to_ipv4` unwraps it
and decoding returns the IPv4 address `0.0.0.1`. -/
theorem addr_roundtrip_counterexample :
    decode_addr (write_addr (1, ⟨.v6 loopback6, 8233⟩)) =
      some ((1, ⟨.v4 [0, 0, 0, 1], 8233⟩), []) ∧
    ((1, (⟨.v4 [0, 0, 0, 1], 8233⟩ : SockAddr)) : Nat × SockAddr) ≠
      (1, ⟨.v6 loopback6, 8233⟩) := by decide

/-- Claim C6, amended.  An IPv4 socket address is written as its 16-byte
IPv4-mapped IPv6 form and decodes back to the identical IPv4 address
(never a generic IPv6 form); an IPv6 socket address round-trips unchanged
provided its octets are neither IPv4-mapped nor IPv4-compatible (that is,
`to_ipv4` fails on them) — IPv4-compatible addresses such as `::1` are
instead unwrapped to IPv4. -/
theorem addr_roundtrip_amended (sa : Nat × SockAddr) (h : addrWF sa)
    (rest : List Nat) :
    (∀ o, sa.2.ip = .v4 o →
      wireOctets sa.2.ip = to_ipv6_mapped o ∧
      decode_addr (write_addr sa ++ rest) = some (sa, rest)) ∧
    (∀ o, sa.2.ip = .v6 o → to_ipv4 o = none →
      decode_addr (write_addr sa ++ rest) = some (sa, rest)) := by
  constructor
  · intro o ho
    constructor
    · rw [ho]
      rfl
    · refine decode_addr_write sa h ?_ rest
      rw [roundTripIp, ho]
      left
      rfl
  · intro o ho hn
    refine decode_addr_write sa h ?_ rest
    rw [roundTripIp, ho]
    right
    simpa [IpAddrM.octets] using hn

/-- Claim C6, witness: the amended round trip evaluated on the IPv4
address `127.0.0.1:8233` and on the native IPv6 address
`2001:db8::1` port 8233. -/
theorem addr_roundtrip_amended_witness :
    decode_addr (write_addr (1, ⟨.v4 [127, 0, 0, 1], 8233⟩) ++ []) =
      some ((1, ⟨.v4 [127, 0, 0, 1], 8233⟩), []) ∧
    decode_addr
        (write_addr
          (1, ⟨.v6 [0x20, 0x01, 0x0d, 0xb8, 0, 0, 0, 0, 0, 0, 0, 0, 0, 0, 0, 1],
            8233⟩) ++ []) =
      some
        ((1, ⟨.v6 [0x20, 0x01, 0x0d, 0xb8, 0, 0, 0, 0, 0, 0, 0, 0, 0, 0, 0, 1],
          8233⟩), []) :=
  ⟨((addr_roundtrip_amended (1, ⟨.v4 [127, 0, 0, 1], 8233⟩) (by decide) []).1
      [127, 0, 0, 1] rfl).2,
    (addr_roundtrip_amended
        (1, ⟨.v6 [0x20, 0x01, 0x0d, 0xb8, 0, 0, 0, 0, 0, 0, 0, 0, 0, 0, 0, 1],
          8233⟩) (by decide) []).2
      [0x20, 0x01, 0x0d, 0xb8, 0, 0, 0, 0, 0, 0, 0, 0, 0, 0, 0, 1] rfl
      (by decide)⟩

/-- Claim C7: the last two bytes written by `write_addr` are the
big-endian representation of the port (every other multi-byte body
integer is written little-endian), and `decode_addr` recovers exactly the
original port value from them — for every socket address, including those
whose IP does not survive the round trip. -/
theorem port_big_endian (sa : Nat × SockAddr) (h : addrWF sa)
    (rest : List Nat) :
    (write_addr sa).drop 24 = [sa.2.port / 256, sa.2.port % 256] ∧
    decode_addr (write_addr sa ++ rest) =
      some ((sa.1, ⟨unwrapIp (wireOctets sa.2.ip), sa.2.port⟩), rest) := by
  constructor
  · have hlen : (toLE 8 sa.1 ++ wireOctets sa.2.ip).length = 24 := by
      simp [toLE_length, wireOctets_length sa.2.ip h.2.1]
    have hp : sa.2.port / 256 % 256 = sa.2.port / 256 := by
      have := h.2.2
      omega
    unfold write_addr
    rw [← hlen, List.drop_left, hp]
  · exact decode_addr_general sa h rest

/-- Claim C7, witness: the port bytes and their round trip evaluated on
the address `127.0.0.1:4660` (port 0x1234, wire bytes 0x12 0x34). -/
theorem port_big_endian_witness :
    (write_addr (1, ⟨.v4 [127, 0, 0, 1], 0x1234⟩)).drop 24 = [0x12, 0x34] ∧
    decode_addr (write_addr (1, ⟨.v4 [127, 0, 0, 1], 0x1234⟩) ++ []) =
      some ((1, ⟨unwrapIp (wireOctets (IpAddrM.v4 [127, 0, 0, 1])), 0x1234⟩),
        []) :=
  port_big_endian (1, ⟨.v4 [127, 0, 0, 1], 0x1234⟩) (by decide) []

/-- Claim C8: the header emitted by `Version::encode` carries a
body-length field equal to 85 plus the byte count returned by
`write_string` for the user agent, which is exactly the length of the
serialized body, and a checksum field equal to the first 4 bytes of the
double SHA-256 of the body. -/
theorem header_invariant (v : Version) (h : v.wf)
    (hb : 85 + write_string_ret v.user_agent < 2 ^ 32) :
    fromLE (((encodeHeader v).drop 16).take 4) =
      85 + write_string_ret v.user_agent ∧
    fromLE (((encodeHeader v).drop 16).take 4) = (encodeBody v).length ∧
    (encodeHeader v).drop 20 = (sha256 (sha256 (encodeBody v))).take 4 := by
  have drop16 : ∀ A B : List Nat, A.length = 16 → (A ++ B).drop 16 = B := by
    intro A B hA
    rw [← hA, List.drop_left]
  have take4 : ∀ A B : List Nat, A.length = 4 → (A ++ B).take 4 = A := by
    intro A B hA
    rw [← hA, List.take_left]
  have drop4 : ∀ A B : List Nat, A.length = 4 → (A ++ B).drop 4 = B := by
    intro A B hA
    rw [← hA, List.drop_left]
  have e : encodeHeader v =
      ([0xfa, 0x1a, 0xf9, 0xbf] ++ versionCommand) ++
        (toLE 4 (85 + write_string_ret v.user_agent) ++
          checksum (encodeBody v)) := by
    simp [encodeHeader]
  have d16 : (encodeHeader v).drop 16 =
      toLE 4 (85 + write_string_ret v.user_agent) ++
        checksum (encodeBody v) := by
    rw [e, drop16 ([0xfa, 0x1a, 0xf9, 0xbf] ++ versionCommand) _ (by rfl)]
  have t4 : ((encodeHeader v).drop 16).take 4 =
      toLE 4 (85 + write_string_ret v.user_agent) := by
    rw [d16, take4 _ _ (toLE_length 4 _)]
  have hfrom : fromLE (((encodeHeader v).drop 16).take 4) =
      85 + write_string_ret v.user_agent := by
    rw [t4]
    exact fromLE_toLE 4 _ (by norm_num at hb ⊢; omega)
  refine ⟨hfrom, ?_, ?_⟩
  · rw [hfrom, encodeBody_length v h]
  · have d20 : (encodeHeader v).drop 20 = checksum (encodeBody v) := by
      have h2016 : (encodeHeader v).drop 20 =
          ((encodeHeader v).drop 16).drop 4 := by
        rw [List.drop_drop]
      rw [h2016, d16, drop4 _ _ (toLE_length 4 _)]
    rw [d20]
    rfl

/-- Claim C8, witness: the header invariant evaluated on the concrete
message `mBase`. -/
theorem header_invariant_witness :
    fromLE (((encodeHeader mBase).drop 16).take 4) =
      85 + write_string_ret mBase.user_agent ∧
    fromLE (((encodeHeader mBase).drop 16).take 4) =
      (encodeBody mBase).length ∧
    (encodeHeader mBase).drop 20 =
      (sha256 (sha256 (encodeBody mBase))).take 4 :=
  header_invariant mBase (by decide) (by decide)

/-- Claim C9, code-bug evidence.  The claim (and the doc comment of
`SimpleRecorder::clear`, which says it removes all previously registered
metrics) require every snapshot taken after `clear()` to be empty for
keys written before it.  The implementation calls
`metrics::clear_recorder()`, which only unsets the process-global
recorder handle and leaves the registry behind the snapshotter intact:
after installing the recorder, incrementing a counter and calling
`clear()`, the counters snapshot still contains the old sample. -/
theorem clear_leaves_samples_visible :
    SimpleRecorder.counters
        (SimpleRecorder.clear
          (recordCounter (SimpleRecorder.install ⟨false, []⟩)
            "ping_perf_latency" 1)) = [("ping_perf_latency", 1)] ∧
    SimpleRecorder.counters
        (SimpleRecorder.clear
          (recordCounter (SimpleRecorder.install ⟨false, []⟩)
            "ping_perf_latency" 1)) ≠ [] := by decide

/-- Claim C10: `decode_string` does not enforce minimal CompactSize
encoding — for a value up to 0xfc, the wide forms behind markers 0xfd,
0xfe and 0xff decode to the same string as the minimal one-byte form, and
each of the four marker shapes is accepted for every value it can
represent. -/
theorem decode_string_accepts_nonminimal (val : Nat) (hv : val ≤ 0xfc)
    (s rest : List Nat) (hs : s.length = val) (hu : validUtf8 s = true) :
    decode_string (0xfd :: toLE 2 val ++ (s ++ rest)) = .ok s rest ∧
    decode_string (0xfe :: toLE 4 val ++ (s ++ rest)) = .ok s rest ∧
    decode_string (0xff :: toLE 8 val ++ (s ++ rest)) = .ok s rest ∧
    decode_string (val :: (s ++ rest)) = .ok s rest ∧
    (∀ w r, w < 2 ^ 16 → decodeCompactSize (0xfd :: toLE 2 w ++ r) =
      some (w, r)) ∧
    (∀ w r, w < 2 ^ 32 → decodeCompactSize (0xfe :: toLE 4 w ++ r) =
      some (w, r)) ∧
    (∀ w r, w < 2 ^ 64 → decodeCompactSize (0xff :: toLE 8 w ++ r) =
      some (w, r)) := by
  refine ⟨?_, ?_, ?_, ?_,
    fun w r hw => decodeCompactSize_fd w hw r,
    fun w r hw => decodeCompactSize_fe w hw r,
    fun w r hw => decodeCompactSize_ff w hw r⟩
  · refine decode_string_of_cs _ s rest ?_ hu
    rw [hs]
    exact decodeCompactSize_fd val (by omega) (s ++ rest)
  · refine decode_string_of_cs _ s rest ?_ hu
    rw [hs]
    exact decodeCompactSize_fe val (by omega) (s ++ rest)
  · refine decode_string_of_cs _ s rest ?_ hu
    rw [hs]
    exact decodeCompactSize_ff val (by omega) (s ++ rest)
  · refine decode_string_of_cs _ s rest ?_ hu
    rw [hs]
    exact decodeCompactSize_small val hv (s ++ rest)

/-- Claim C10, witness: the non-minimal forms of length 2 with the payload
string ab decode exactly as the minimal form does. -/
theorem decode_string_accepts_nonminimal_witness :
    decode_string (0xfd :: toLE 2 2 ++ ([0x61, 0x62] ++ [])) =
      .ok [0x61, 0x62] [] ∧
    decode_string (2 :: ([0x61, 0x62] ++ [])) = .ok [0x61, 0x62] [] :=
  ⟨(decode_string_accepts_nonminimal 2 (by decide) [0x61, 0x62] [] rfl
      (by decide)).1,
    (decode_string_accepts_nonminimal 2 (by decide) [0x61, 0x62] [] rfl
      (by decide)).2.2.2.1⟩

end Ziggurat
